import Mathlib

/-!
Shallow embedding of the protocol-decoding core of
`hyundai_elevator_wbtool_ver5.0.py` (WB Tool – RS232 HHT Terminal):
the `TildeFramer` frame extractor, the LCD line splitter and glyph
decoder, and the cursor/render/command state machine of `MainWindow`.
Bytes are modelled as `Nat`, Python byte strings as `List Nat`,
Python strings as `String`, and the mutable widget state as an
explicit record threaded through the operations.  The serial port and
the Qt widgets are external collaborators: the outcome of a transport
write is an explicit `WriteResult` argument, the text shown in the
LCD widget is the `lcd_text` field, and the operator log is the `log`
field.
-/

set_option autoImplicit false

namespace WBTool

/-- The glyph substitution table `LCD_CHAR_MAP`, modelled as a lookup
function mirroring the Python dict `{0xA3: "↑", 0xA4: "↓", 0xD4: "●", 0xE4: "○"}`. -/
def LCD_CHAR_MAP (b : Nat) : Option Char :=
  if b = 0xA3 then some '↑'
  else if b = 0xA4 then some '↓'
  else if b = 0xD4 then some '●'
  else if b = 0xE4 then some '○'
  else none

def PRINTABLE_MIN : Nat := 32

def PRINTABLE_MAX : Nat := 126

/-- State of `TildeFramer`: the accumulation buffer `self._in` and the
flag `self._armed`. -/
structure TildeFramer where
  buf : List Nat
  armed : Bool
  deriving DecidableEq, Repr

/-- Model of `TildeFramer.__init__`: empty buffer, disarmed. -/
def TildeFramer.init : TildeFramer := ⟨[], false⟩

/-- One iteration of the `for b in chunk` loop body of `TildeFramer.feed`:
returns the new state and the frames appended to `out` by this byte. -/
def TildeFramer.feedByte (s : TildeFramer) (b : Nat) : TildeFramer × List (List Nat) :=
  if b = 0x7E then
    if s.armed ∧ s.buf ≠ [] then
      (⟨[], false⟩, [s.buf])
    else
      (⟨[], true⟩, [])
  else if s.armed then
    (⟨s.buf ++ [b], s.armed⟩, [])
  else
    (s, [])

/-- Model of `TildeFramer.feed(chunk)`: scans the chunk byte by byte, returning the
final state and the list `out` of completed frames in arrival order. -/
def TildeFramer.feed : TildeFramer → List Nat → TildeFramer × List (List Nat)
  | s, [] => (s, [])
  | s, b :: rest =>
    match s.feedByte b with
    | (s1, f1) =>
      match s1.feed rest with
      | (s2, f2) => (s2, f1 ++ f2)

/-- Successive `feed` calls on the same extractor, concatenating the
frames each call returns. -/
def TildeFramer.feedMany : TildeFramer → List (List Nat) → TildeFramer × List (List Nat)
  | s, [] => (s, [])
  | s, c :: cs =>
    match s.feed c with
    | (s1, f1) =>
      match s1.feedMany cs with
      | (s2, f2) => (s2, f1 ++ f2)

/-- The implicit invariant of claim C10: a disarmed extractor holds no
buffered bytes. -/
def TildeFramer.Inv (s : TildeFramer) : Prop := s.armed = false → s.buf = []

/-- The character loop of `MainWindow._to_text`: glyph-map bytes become
their mapped glyph, printable ASCII bytes become `chr(b)`, the space
byte becomes a space (already covered by the printable range), all
other bytes contribute nothing. -/
def to_text_chars : List Nat → List Char
  | [] => []
  | b :: rest =>
    match LCD_CHAR_MAP b with
    | some c => c :: to_text_chars rest
    | none =>
      if PRINTABLE_MIN ≤ b ∧ b ≤ PRINTABLE_MAX then Char.ofNat b :: to_text_chars rest
      else if b = 0x20 then ' ' :: to_text_chars rest
      else to_text_chars rest

/-- Model of `MainWindow._to_text(raw)`: the decoded characters joined into a string. -/
def to_text (raw : List Nat) : String := ⟨to_text_chars raw⟩

/-- Python `str.isspace` on the characters that can occur here: the six
ASCII whitespace characters recognised by `str.strip()`. -/
def isPySpace (c : Char) : Bool :=
  c == ' ' || c == '\t' || c == '\n' || c == '\r' || c == Char.ofNat 11 || c == Char.ofNat 12

/-- Python `str.strip()` on the character list: drop leading and trailing
whitespace. -/
def pyStrip (cs : List Char) : List Char :=
  ((cs.dropWhile isPySpace).reverse.dropWhile isPySpace).reverse

/-- Python `str.strip()` on strings. -/
def strip (s : String) : String := ⟨pyStrip s.data⟩

/-- The scan loop of `MainWindow._split_lcd_lines`, with the `lines` and
`buf` accumulators explicit; the base case performs the post-loop flush
of a non-empty remaining buffer. -/
def split_loop : List Nat → List String → List Nat → List String
  | [], lines, buf => if buf = [] then lines else lines ++ [strip (to_text buf)]
  | b :: rest, lines, buf =>
    if b = 0xC0 ∨ b = 0x94 ∨ b = 0xD4 then
      if buf = [] then split_loop rest lines buf
      else split_loop rest (lines ++ [strip (to_text buf)]) []
    else if (32 ≤ b ∧ b ≤ 126) ∨ (LCD_CHAR_MAP b).isSome then
      split_loop rest lines (buf ++ [b])
    else
      split_loop rest lines buf

/-- Model of `MainWindow._split_lcd_lines(data)`: run the scan loop from empty
accumulators, then keep only the lines that are non-empty after
stripping. -/
def split_lcd_lines (data : List Nat) : List String :=
  (split_loop data [] []).filter (fun ln => strip ln != "")

/-- One uppercase hex digit of the two-digit hex rendering used in the log. -/
def hexDigit (n : Nat) : Char :=
  if n < 10 then Char.ofNat (48 + n) else Char.ofNat (55 + n)

/-- Two-digit uppercase hex rendering of one byte. -/
def toHex2 (b : Nat) : String := ⟨[hexDigit (b / 16 % 16), hexDigit (b % 16)]⟩

/-- Model of the space-joined hex dump logged for transmitted bytes. -/
def hexLine (data : List Nat) : String := String.intercalate (" ") (data.map toHex2)

/-- Outcome of the external `self.ser.write(data)` call in
`MainWindow._send`: `closed` models `self.ser` being `None` or not
open (the guard fails, nothing happens), `ok` a successful write, and
`err msg` a raised exception with message `msg`. -/
inductive WriteResult where
  | ok : WriteResult
  | err : String → WriteResult
  | closed : WriteResult
  deriving DecidableEq, Repr

/-- The state of `MainWindow` relevant to the decoding pipeline:
`cursor_index` and `current_lines` as in the source, `cursor_visible`
for the blink flag, `lcd_text` for the text currently set on the LCD
widget, `log` for the operator-facing log lines, and `sent` for the
byte strings successfully written to the transport. -/
structure MainWindow where
  cursor_index : Int
  current_lines : List String
  cursor_visible : Bool
  lcd_text : String
  log : List String
  sent : List (List Nat)
  deriving DecidableEq, Repr

/-- Model of `MainWindow.__init__`: cursor 0, no lines, cursor visible. -/
def MainWindow.init : MainWindow := ⟨0, [], true, "", [], []⟩

/-- Model of `MainWindow._render_lcd`: early-return when `current_lines` is empty
or filters to empty; otherwise reduce the cursor index modulo the
filtered line count and set the LCD text with the `▶ ` cursor marker on
the selected line when the blink flag is visible. -/
def MainWindow.render_lcd (w : MainWindow) : MainWindow :=
  if w.current_lines = [] then w
  else
    let lines := w.current_lines.filter (fun ln => strip ln != "")
    if lines = [] then w
    else
      let idx := w.cursor_index % (lines.length : Int)
      let rendered := lines.enum.map fun p =>
        (if ((p.1 : Int) == idx) && w.cursor_visible then "▶ " else "  ") ++ p.2
      { w with cursor_index := idx, lcd_text := String.intercalate ("\n") rendered }

/-- Model of `MainWindow._send(data)`: nothing happens when the port is closed;
a successful write records the bytes and logs a `[TX]` line; a raised
exception is caught and logged as `[TX ERROR]`, leaving all other
state untouched. -/
def MainWindow.send (w : MainWindow) (data : List Nat) (res : WriteResult) : MainWindow :=
  match res with
  | WriteResult.closed => w
  | WriteResult.ok =>
      { w with sent := w.sent ++ [data], log := w.log ++ ["[TX] " ++ hexLine data] }
  | WriteResult.err msg =>
      { w with log := w.log ++ ["[TX ERROR] " ++ msg] }

/-- Model of `MainWindow.on_framed(frame)`: filter out the padding byte `0x80`,
split into lines, store them in `current_lines`, and render. -/
def MainWindow.on_framed (w : MainWindow) (frame : List Nat) : MainWindow :=
  let filtered := frame.filter (fun b => b != 0x80)
  let lines := split_lcd_lines filtered
  MainWindow.render_lcd { w with current_lines := lines }

/-- Model of `MainWindow.toggle_cursor`: flip the blink flag and render. -/
def MainWindow.toggle_cursor (w : MainWindow) : MainWindow :=
  MainWindow.render_lcd { w with cursor_visible := !w.cursor_visible }

/-- Model of `MainWindow.move_up`: no-op on an empty line set; otherwise decrement
the cursor modulo the line count, render, and send `0x08`. -/
def MainWindow.move_up (w : MainWindow) (res : WriteResult) : MainWindow :=
  if w.current_lines = [] then w
  else
    MainWindow.send
      (MainWindow.render_lcd
        { w with cursor_index := (w.cursor_index - 1) % (w.current_lines.length : Int) })
      [0x08] res

/-- Model of `MainWindow.move_dn`: no-op on an empty line set; otherwise increment
the cursor modulo the line count, render, and send `0x01`. -/
def MainWindow.move_dn (w : MainWindow) (res : WriteResult) : MainWindow :=
  if w.current_lines = [] then w
  else
    MainWindow.send
      (MainWindow.render_lcd
        { w with cursor_index := (w.cursor_index + 1) % (w.current_lines.length : Int) })
      [0x01] res

/-- A window whose stored line set is the single stale line `"A"`. -/
def wStale : MainWindow := ⟨0, ["A"], true, "▶ A", [], []⟩

/-- A window holding three lines with the cursor on index 0. -/
def wThree : MainWindow := ⟨0, ["A", "B", "C"], true, "", [], []⟩

/-- A window holding three lines with the cursor on index 2. -/
def wThreeLast : MainWindow := ⟨2, ["A", "B", "C"], true, "", [], []⟩

/-- A window whose cursor index is 7, about to receive a 3-line frame. -/
def wSeven : MainWindow := ⟨7, ["X"], true, "", [], []⟩

/-- The example frame from the spec: bytes `41 C0 42 94 43`. -/
def demoFrame : List Nat := [0x41, 0xC0, 0x42, 0x94, 0x43]

theorem TildeFramer.feed_append (s : TildeFramer) (c1 c2 : List Nat) :
    s.feed (c1 ++ c2) =
      (((s.feed c1).1.feed c2).1, (s.feed c1).2 ++ ((s.feed c1).1.feed c2).2) := by
  induction c1 generalizing s with
  | nil => simp [TildeFramer.feed]
  | cons b t ih =>
    simp only [List.cons_append, TildeFramer.feed]
    rcases h : s.feedByte b with ⟨s1, f1⟩
    simp only [List.append_eq, ih s1, List.append_assoc]

theorem TildeFramer.feedMany_eq_feed_flatten (s : TildeFramer) (chunks : List (List Nat)) :
    s.feedMany chunks = s.feed chunks.flatten := by
  induction chunks generalizing s with
  | nil => simp [TildeFramer.feedMany, TildeFramer.feed]
  | cons c cs ih =>
    simp only [TildeFramer.feedMany, List.flatten_cons, TildeFramer.feed_append]
    rcases h : s.feed c with ⟨s1, f1⟩
    simp only [ih s1]

theorem TildeFramer.feedByte_frames_ne_nil (s : TildeFramer) (b : Nat) (f : List Nat)
    (hf : f ∈ (s.feedByte b).2) : f ≠ [] := by
  unfold TildeFramer.feedByte at hf
  split at hf
  · split at hf
    · rename_i h
      simp only [List.mem_singleton] at hf
      exact hf ▸ h.2
    · simp at hf
  · split at hf <;> simp at hf

theorem TildeFramer.feed_frames_ne_nil (s : TildeFramer) (chunk : List Nat) (f : List Nat)
    (hf : f ∈ (s.feed chunk).2) : f ≠ [] := by
  induction chunk generalizing s with
  | nil => simp [TildeFramer.feed] at hf
  | cons b t ih =>
    simp only [TildeFramer.feed] at hf
    rcases h : s.feedByte b with ⟨s1, f1⟩
    rw [h] at hf
    rcases h2 : s1.feed t with ⟨s2, f2⟩
    rw [h2] at hf
    simp only [List.mem_append] at hf
    rcases hf with hf | hf
    · exact TildeFramer.feedByte_frames_ne_nil s b f (by rw [h]; exact hf)
    · exact ih s1 (by rw [h2]; exact hf)

theorem TildeFramer.feedByte_inv (s : TildeFramer) (b : Nat) (h : s.Inv) :
    ((s.feedByte b).1).Inv := by
  unfold TildeFramer.feedByte
  split
  · split
    · intro _; rfl
    · intro _; rfl
  · split
    · rename_i harm
      intro hfalse
      change s.armed = false at hfalse
      rw [hfalse] at harm
      simp at harm
    · exact h

theorem TildeFramer.feed_inv (s : TildeFramer) (chunk : List Nat) (h : s.Inv) :
    ((s.feed chunk).1).Inv := by
  induction chunk generalizing s with
  | nil => exact h
  | cons b t ih =>
    simp only [TildeFramer.feed]
    rcases hb : s.feedByte b with ⟨s1, f1⟩
    rcases ht : s1.feed t with ⟨s2, f2⟩
    have h1 : s1.Inv := by
      have h0 := TildeFramer.feedByte_inv s b h
      rw [hb] at h0
      exact h0
    have h2 := ih s1 h1
    rw [ht] at h2
    exact h2

theorem mem_pyStrip {c : Char} {cs : List Char} (h : c ∈ pyStrip cs) : c ∈ cs := by
  unfold pyStrip at h
  rw [List.mem_reverse] at h
  have h1 := (List.dropWhile_sublist _).mem h
  rw [List.mem_reverse] at h1
  exact (List.dropWhile_sublist _).mem h1

theorem LCD_CHAR_MAP_ne_dot (b : Nat) (hb : b ≠ 0xD4) (c : Char)
    (h : LCD_CHAR_MAP b = some c) : c ≠ '●' := by
  unfold LCD_CHAR_MAP at h
  by_cases h1 : b = 0xA3
  · rw [if_pos h1] at h
    cases h
    decide
  rw [if_neg h1] at h
  by_cases h2 : b = 0xA4
  · rw [if_pos h2] at h
    cases h
    decide
  rw [if_neg h2, if_neg hb] at h
  by_cases h4 : b = 0xE4
  · rw [if_pos h4] at h
    cases h
    decide
  · rw [if_neg h4] at h
    cases h

theorem ofNat_printable_ne_dot (b : Nat) (h1 : 32 ≤ b) (h2 : b ≤ 126) :
    Char.ofNat b ≠ '●' := by
  have hall : ∀ x, x < 127 → 32 ≤ x → Char.ofNat x ≠ '●' := by decide
  exact hall b (Nat.lt_succ_of_le h2) h1

theorem to_text_chars_no_dot (raw : List Nat) (h : (0xD4 : Nat) ∉ raw) :
    '●' ∉ to_text_chars raw := by
  induction raw with
  | nil => simp [to_text_chars]
  | cons b rest ih =>
    have hb : b ≠ 0xD4 := fun he => h (he ▸ List.mem_cons_self b rest)
    have hrest := ih (fun hm => h (List.mem_cons_of_mem _ hm))
    intro hmem
    simp only [to_text_chars] at hmem
    rcases hcase : LCD_CHAR_MAP b with _ | c
    · simp only [hcase] at hmem
      by_cases hpr : PRINTABLE_MIN ≤ b ∧ b ≤ PRINTABLE_MAX
      · rw [if_pos hpr] at hmem
        rcases List.mem_cons.mp hmem with he | hm
        · exact ofNat_printable_ne_dot b hpr.1 hpr.2 he.symm
        · exact hrest hm
      · rw [if_neg hpr] at hmem
        by_cases hsp : b = 0x20
        · rw [if_pos hsp] at hmem
          rcases List.mem_cons.mp hmem with he | hm
          · exact absurd he (by decide)
          · exact hrest hm
        · rw [if_neg hsp] at hmem
          exact hrest hmem
    · simp only [hcase] at hmem
      rcases List.mem_cons.mp hmem with he | hm
      · exact LCD_CHAR_MAP_ne_dot b hb c hcase he.symm
      · exact hrest hm

theorem strip_to_text_no_dot (buf : List Nat) (h : (0xD4 : Nat) ∉ buf) :
    '●' ∉ (strip (to_text buf)).data :=
  fun hm => to_text_chars_no_dot buf h (mem_pyStrip hm)

theorem split_loop_no_dot (data : List Nat) :
    ∀ (lines : List String) (buf : List Nat),
      (∀ l ∈ lines, '●' ∉ l.data) → (0xD4 : Nat) ∉ buf →
      ∀ ln ∈ split_loop data lines buf, '●' ∉ ln.data := by
  induction data with
  | nil =>
    intro lines buf hl hb ln hln
    simp only [split_loop] at hln
    split at hln
    · exact hl ln hln
    · rcases List.mem_append.mp hln with hm | hm
      · exact hl ln hm
      · rw [List.mem_singleton] at hm
        exact hm ▸ strip_to_text_no_dot buf hb
  | cons b rest ih =>
    intro lines buf hl hb ln hln
    simp only [split_loop] at hln
    split at hln
    · split at hln
      · exact ih lines buf hl hb ln hln
      · refine ih _ [] ?_ (by simp) ln hln
        intro l hlm
        rcases List.mem_append.mp hlm with hm | hm
        · exact hl l hm
        · rw [List.mem_singleton] at hm
          exact hm ▸ strip_to_text_no_dot buf hb
    · split at hln
      · rename_i hctl _
        refine ih lines (buf ++ [b]) hl ?_ ln hln
        intro hm
        rcases List.mem_append.mp hm with h1 | h1
        · exact hb h1
        · rw [List.mem_singleton] at h1
          exact hctl (Or.inr (Or.inr h1.symm))
      · exact ih lines buf hl hb ln hln

theorem split_lcd_lines_no_blank (data : List Nat) (ln : String)
    (h : ln ∈ split_lcd_lines data) : strip ln ≠ "" := by
  unfold split_lcd_lines at h
  have h2 := (List.mem_filter.mp h).2
  simpa [bne_iff_ne] using h2

theorem split_loop_control_only :
    ∀ (data : List Nat), (∀ b ∈ data, b = 0xC0 ∨ b = 0x94 ∨ b = 0xD4) →
      ∀ lines, split_loop data lines [] = lines := by
  intro data
  induction data with
  | nil =>
    intro _ lines
    simp [split_loop]
  | cons b rest ih =>
    intro h lines
    have hb := h b (List.mem_cons_self b rest)
    simp only [split_loop, if_pos hb, if_pos rfl]
    exact ih (fun x hx => h x (List.mem_cons_of_mem _ hx)) lines

theorem split_lcd_lines_filter_eq (data : List Nat) :
    (split_lcd_lines data).filter (fun ln => strip ln != "") = split_lcd_lines data := by
  apply List.filter_eq_self.mpr
  intro a ha
  simpa [bne_iff_ne] using split_lcd_lines_no_blank data a ha

theorem render_lcd_of_nil (w : MainWindow) (h : w.current_lines = []) :
    w.render_lcd = w := by
  unfold MainWindow.render_lcd
  rw [if_pos h]

theorem render_lcd_state (w : MainWindow)
    (hne : w.current_lines ≠ [])
    (hgood : w.current_lines.filter (fun ln => strip ln != "") = w.current_lines) :
    w.render_lcd.cursor_index = w.cursor_index % (w.current_lines.length : Int) ∧
    w.render_lcd.current_lines = w.current_lines ∧
    w.render_lcd.cursor_visible = w.cursor_visible ∧
    w.render_lcd.log = w.log ∧
    w.render_lcd.sent = w.sent := by
  simp only [MainWindow.render_lcd, hgood]
  rw [if_neg hne, if_neg hne]
  simp

theorem send_state (w : MainWindow) (data : List Nat) (res : WriteResult) :
    (w.send data res).cursor_index = w.cursor_index ∧
    (w.send data res).current_lines = w.current_lines ∧
    (w.send data res).cursor_visible = w.cursor_visible ∧
    (w.send data res).lcd_text = w.lcd_text := by
  cases res <;> simp [MainWindow.send]

theorem send_ok_sent (w : MainWindow) (data : List Nat) :
    (w.send data WriteResult.ok).sent = w.sent ++ [data] := by
  simp [MainWindow.send]

/-- Claim C1: chunk-boundary independence of the frame extractor — feeding
any chunks one by one to a fresh `TildeFramer` emits exactly the same
concatenated sequence of frames, in the same order, as feeding the whole
concatenated byte sequence in a single `feed` call. -/
theorem feed_chunk_boundary_independence (chunks : List (List Nat)) :
    (TildeFramer.init.feedMany chunks).2 = (TildeFramer.init.feed chunks.flatten).2 := by
  rw [TildeFramer.feedMany_eq_feed_flatten]

/-- Claim C3: every frame emitted by `feed` is non-empty, from any extractor
state and for any input; in particular `feed([0x7E, 0x7E])` on a fresh
extractor returns zero frames. -/
theorem feed_emits_no_empty_frame :
    (∀ (s : TildeFramer) (chunk f : List Nat), f ∈ (s.feed chunk).2 → f ≠ []) ∧
    (TildeFramer.init.feed [0x7E, 0x7E]).2 = [] :=
  ⟨TildeFramer.feed_frames_ne_nil, by decide⟩

theorem feed_emits_no_empty_frame_witness : ([0x41] : List Nat) ≠ [] :=
  feed_emits_no_empty_frame.1 TildeFramer.init [0x7E, 0x41, 0x7E] [0x41] (by decide)

/-- Claim C10: the implicit framer invariant — initially, after every
byte-by-byte step, and after every `feed` call, a disarmed extractor has an
empty accumulation buffer. -/
theorem disarmed_buffer_empty_invariant :
    TildeFramer.Inv TildeFramer.init ∧
    (∀ (s : TildeFramer) (b : Nat), s.Inv → ((s.feedByte b).1).Inv) ∧
    (∀ (s : TildeFramer) (chunk : List Nat), s.Inv → ((s.feed chunk).1).Inv) :=
  ⟨fun _ => rfl, TildeFramer.feedByte_inv, TildeFramer.feed_inv⟩

theorem disarmed_buffer_empty_invariant_witness :
    TildeFramer.Inv ((TildeFramer.init.feed [0x7E, 0x41, 0x7E]).1) :=
  disarmed_buffer_empty_invariant.2.2 TildeFramer.init [0x7E, 0x41, 0x7E] (fun _ => rfl)

/-- Claim C4: `split` on the frame bytes `41 C0 42 94 43` yields exactly the
three lines `"A"`, `"B"`, `"C"`: each control byte flushes the non-empty
buffer as a trimmed line without being appended, and the non-empty
remaining buffer is flushed as the final line. -/
theorem split_demo_frame : split_lcd_lines demoFrame = ["A", "B", "C"] := by decide

/-- Claim C5: every line returned by `split` is non-empty after trimming,
and a frame consisting only of control bytes yields an empty line
sequence. -/
theorem split_omits_blank_lines :
    (∀ (frame : List Nat) (ln : String), ln ∈ split_lcd_lines frame → strip ln ≠ "") ∧
    (∀ frame : List Nat, (∀ b ∈ frame, b = 0xC0 ∨ b = 0x94 ∨ b = 0xD4) →
      split_lcd_lines frame = []) := by
  refine ⟨split_lcd_lines_no_blank, ?_⟩
  intro frame h
  unfold split_lcd_lines
  rw [split_loop_control_only frame h []]
  rfl

theorem split_omits_blank_lines_witness :
    strip ("A") ≠ "" ∧ split_lcd_lines [0xC0, 0x94] = [] :=
  ⟨split_omits_blank_lines.1 [0x41] "A" (by decide),
   split_omits_blank_lines.2 [0xC0, 0x94] (by decide)⟩

/-- Claim C6: byte `0xD4` always acts as a line terminator and never as a
glyph — no line returned by `split` ever contains the filled-circle glyph
`●`, because the terminator check precedes glyph substitution. -/
theorem split_never_renders_dot_glyph (data : List Nat) (ln : String)
    (h : ln ∈ split_lcd_lines data) : '●' ∉ ln.data := by
  unfold split_lcd_lines at h
  exact split_loop_no_dot data [] [] (by simp) (by simp) ln (List.mem_of_mem_filter h)

theorem split_never_renders_dot_glyph_witness : '●' ∉ ("A" : String).data :=
  split_never_renders_dot_glyph [0x41] "A" (by decide)

/-- Claim C2, counterexample: receiving a frame that decodes to zero lines
does NOT leave the stored line set unchanged — `on_framed` overwrites
`current_lines` with the empty list even though the render is suppressed. -/
theorem empty_decode_overwrites_stored_lines :
    (wStale.on_framed [0xC0]).current_lines ≠ wStale.current_lines := by decide

/-- Claim C2, amended: when a frame decodes to an empty line sequence the
render is suppressed — the displayed LCD text, the cursor index and the
blink flag are unchanged, so the display keeps the stale lines — but the
stored line set is replaced by the empty sequence rather than kept. -/
theorem empty_decode_suppresses_render (w : MainWindow) (frame : List Nat)
    (h : split_lcd_lines (frame.filter (fun b => b != 0x80)) = []) :
    (w.on_framed frame).current_lines = [] ∧
    (w.on_framed frame).lcd_text = w.lcd_text ∧
    (w.on_framed frame).cursor_index = w.cursor_index ∧
    (w.on_framed frame).cursor_visible = w.cursor_visible := by
  unfold MainWindow.on_framed
  simp only [h]
  rw [render_lcd_of_nil _ rfl]
  exact ⟨rfl, rfl, rfl, rfl⟩

theorem empty_decode_suppresses_render_witness :
    (wStale.on_framed [0xC0]).current_lines = [] ∧
    (wStale.on_framed [0xC0]).lcd_text = wStale.lcd_text ∧
    (wStale.on_framed [0xC0]).cursor_index = wStale.cursor_index ∧
    (wStale.on_framed [0xC0]).cursor_visible = wStale.cursor_visible :=
  empty_decode_suppresses_render wStale [0xC0] (by decide)

/-- Claim C7: `move_up`/`move_dn` are no-ops on an empty line set (no index
change, nothing sent); otherwise they decrement resp. increment the cursor
index modulo the line count, wrapping at both ends (index 0 over 3 lines
moves up to 2, index 2 moves down to 0), and send command byte `0x08` for
up and `0x01` for down. -/
theorem move_wraps_modulo (w : MainWindow) (res : WriteResult)
    (hgl : ∀ ln ∈ w.current_lines, strip ln ≠ "") :
    (w.current_lines = [] → w.move_up res = w ∧ w.move_dn res = w) ∧
    (w.current_lines ≠ [] →
      (w.move_up res).cursor_index = (w.cursor_index - 1) % (w.current_lines.length : Int) ∧
      (w.move_dn res).cursor_index = (w.cursor_index + 1) % (w.current_lines.length : Int) ∧
      (w.move_up WriteResult.ok).sent = w.sent ++ [[0x08]] ∧
      (w.move_dn WriteResult.ok).sent = w.sent ++ [[0x01]]) ∧
    (wThree.move_up WriteResult.ok).cursor_index = 2 ∧
    (wThreeLast.move_dn WriteResult.ok).cursor_index = 0 := by
  refine ⟨?_, ?_, by decide, by decide⟩
  · intro h
    constructor
    · simp [MainWindow.move_up, h]
    · simp [MainWindow.move_dn, h]
  · intro h
    have hgood : w.current_lines.filter (fun ln => strip ln != "") = w.current_lines :=
      List.filter_eq_self.mpr (fun a ha => by simpa [bne_iff_ne] using hgl a ha)
    have eup : ∀ r, w.move_up r = MainWindow.send (MainWindow.render_lcd
        { w with cursor_index := (w.cursor_index - 1) % (w.current_lines.length : Int) })
        [0x08] r := by
      intro r
      simp [MainWindow.move_up, h]
    have edn : ∀ r, w.move_dn r = MainWindow.send (MainWindow.render_lcd
        { w with cursor_index := (w.cursor_index + 1) % (w.current_lines.length : Int) })
        [0x01] r := by
      intro r
      simp [MainWindow.move_dn, h]
    have hrup := render_lcd_state
      { w with cursor_index := (w.cursor_index - 1) % (w.current_lines.length : Int) } h hgood
    have hrdn := render_lcd_state
      { w with cursor_index := (w.cursor_index + 1) % (w.current_lines.length : Int) } h hgood
    refine ⟨?_, ?_, ?_, ?_⟩
    · rw [eup res, (send_state _ _ _).1, hrup.1]
      exact Int.emod_emod_of_dvd _ dvd_rfl
    · rw [edn res, (send_state _ _ _).1, hrdn.1]
      exact Int.emod_emod_of_dvd _ dvd_rfl
    · rw [eup WriteResult.ok, send_ok_sent, hrup.2.2.2.2]
    · rw [edn WriteResult.ok, send_ok_sent, hrdn.2.2.2.2]

theorem move_wraps_modulo_witness :
    (wThree.move_up WriteResult.ok).cursor_index =
      (wThree.cursor_index - 1) % (wThree.current_lines.length : Int) :=
  ((move_wraps_modulo wThree WriteResult.ok (by decide)).2.1 (by decide)).1

/-- Claim C8: when a frame decoding to a non-empty line set replaces the
previous one, the cursor index becomes its old value modulo the new line
count — not clamped and not reset to 0 (index 7 with 3 new lines becomes
index 1, as the accompanying witness instantiates). -/
theorem new_lines_reduce_cursor_modulo (w : MainWindow) (frame : List Nat)
    (h : split_lcd_lines (frame.filter (fun b => b != 0x80)) ≠ []) :
    (w.on_framed frame).current_lines = split_lcd_lines (frame.filter (fun b => b != 0x80)) ∧
    (w.on_framed frame).cursor_index =
      w.cursor_index % ((split_lcd_lines (frame.filter (fun b => b != 0x80))).length : Int) := by
  have hgood : (split_lcd_lines (frame.filter (fun b => b != 0x80))).filter
      (fun ln => strip ln != "") = split_lcd_lines (frame.filter (fun b => b != 0x80)) :=
    split_lcd_lines_filter_eq _
  have hr := render_lcd_state
    { w with current_lines := split_lcd_lines (frame.filter (fun b => b != 0x80)) } h hgood
  exact ⟨hr.2.1, hr.1⟩

theorem new_lines_reduce_cursor_modulo_witness :
    (wSeven.on_framed demoFrame).cursor_index = 1 := by
  have h := new_lines_reduce_cursor_modulo wSeven demoFrame (by decide)
  rw [h.2]
  decide

/-- Claim C9: a transport write failure while sending a command byte is
caught and reported as a non-fatal `[TX ERROR]` log line; the cursor
index, the stored line set, the LCD text and the record of sent bytes are
all unchanged by the failed send. -/
theorem send_failure_preserves_state (w : MainWindow) (data : List Nat) (msg : String) :
    (w.send data (WriteResult.err msg)).cursor_index = w.cursor_index ∧
    (w.send data (WriteResult.err msg)).current_lines = w.current_lines ∧
    (w.send data (WriteResult.err msg)).lcd_text = w.lcd_text ∧
    (w.send data (WriteResult.err msg)).sent = w.sent ∧
    (w.send data (WriteResult.err msg)).log = w.log ++ ["[TX ERROR] " ++ msg] := by
  simp [MainWindow.send]

end WBTool
